import Mathlib

/-!
Shallow embedding of `src/recipys/collections/bidirectionaliter.py`.

The Python class `BiDirectionalIter` wraps a list of elements, an integer
cursor `_index`, a signed step `_direction` (1 or -1), and the stored
length `_length = len(_elements)`.  `next` mutates the index by
`(_index + _direction) % _length` (Python modulo; for a positive modulus
this agrees with Lean's `Int.emod`, giving a result in `[0, N)`) and then
returns `_elements[_index]`.  Python raises `ZeroDivisionError` when the
stored length is 0 and `IndexError` on an out-of-range subscript; we model
both as values of `PyError`.  `__init__` performs no validation at all, so
construction is modelled as always returning `Except.ok`.
-/

instance {ε α : Type} [DecidableEq ε] [DecidableEq α] : DecidableEq (Except ε α) :=
  fun x y =>
    match x, y with
    | Except.ok a, Except.ok b =>
      if h : a = b then Decidable.isTrue (by rw [h])
      else Decidable.isFalse (by simp [h])
    | Except.error a, Except.error b =>
      if h : a = b then Decidable.isTrue (by rw [h])
      else Decidable.isFalse (by simp [h])
    | Except.ok _, Except.error _ => Decidable.isFalse (by simp)
    | Except.error _, Except.ok _ => Decidable.isFalse (by simp)

/-- Errors a Python run of this code can surface.  `invalidArgument` is the
error kind named by the design document; the code itself never raises it. -/
inductive PyError where
  | invalidArgument : PyError
  | zeroDivision : PyError
  | indexError : PyError
deriving DecidableEq, Repr

/-- State of `BiDirectionalIter`: the four instance attributes set by
`__init__`. -/
structure BiDirectionalIter (α : Type) where
  _elements : List α
  _index : Int
  _direction : Int
  _length : Nat
deriving DecidableEq, Repr

/-- Python list subscript `l[i]`: a negative index has the length added
once, then the access succeeds iff the result is in `[0, len)`. -/
def pyListGet (l : List α) (i : Int) : Option α :=
  let j : Int := if i < 0 then i + (l.length : Int) else i
  if 0 ≤ j then l[j.toNat]? else none

/-- Embedding of `BiDirectionalIter.__init__(elements, starting_index)`: it
stores the four attributes, direction 1, length `len(elements)`, and
performs no validation. -/
def BiDirectionalIter.init (elements : List α) (starting_index : Int) :
    BiDirectionalIter α :=
  { _elements := elements, _index := starting_index, _direction := 1,
    _length := elements.length }

/-- Construction as the caller observes it: `__init__` contains no `raise`,
so it always succeeds. -/
def BiDirectionalIter.construct (elements : List α) (starting_index : Int) :
    Except PyError (BiDirectionalIter α) :=
  Except.ok (BiDirectionalIter.init elements starting_index)

/-- Embedding of `BiDirectionalIter.next`: it updates `_index` to
`(_index + _direction) % _length`, then returns `_elements[_index]`.
A stored length of 0 raises `ZeroDivisionError` from `%`. -/
def BiDirectionalIter.next (it : BiDirectionalIter α) :
    Except PyError (α × BiDirectionalIter α) :=
  if it._length = 0 then Except.error PyError.zeroDivision
  else
    match pyListGet it._elements ((it._index + it._direction) % (it._length : Int)) with
    | some x =>
      Except.ok (x, { it with _index := (it._index + it._direction) % (it._length : Int) })
    | none => Except.error PyError.indexError

/-- Embedding of `BiDirectionalIter.set_direction_forward`: sets
`_direction = 1`. -/
def BiDirectionalIter.set_direction_forward (it : BiDirectionalIter α) :
    BiDirectionalIter α :=
  { it with _direction := 1 }

/-- Embedding of `BiDirectionalIter.set_direction_reverse`: sets
`_direction = -1`. -/
def BiDirectionalIter.set_direction_reverse (it : BiDirectionalIter α) :
    BiDirectionalIter α :=
  { it with _direction := -1 }

/-- Iterating `next` a given number of times, collecting the returned
elements.  An error from any call aborts the run. -/
def BiDirectionalIter.steps (it : BiDirectionalIter α) :
    Nat → Except PyError (List α × BiDirectionalIter α)
  | 0 => Except.ok ([], it)
  | n + 1 =>
    match it.next with
    | Except.ok (x, it1) =>
      match it1.steps n with
      | Except.ok (xs, it2) => Except.ok (x :: xs, it2)
      | Except.error e => Except.error e
    | Except.error e => Except.error e

/-- The state invariant the design document asserts: the stored length
matches the backing list, is at least 1, the cursor is in `[0, N)`, and
the direction is one of the two values the setters install. -/
abbrev BiDirectionalIter.Valid (it : BiDirectionalIter α) : Prop :=
  it._length = it._elements.length ∧ 1 ≤ it._length ∧
  0 ≤ it._index ∧ it._index < (it._length : Int) ∧
  (it._direction = 1 ∨ it._direction = -1)

/-- One interaction with the iterator: a `next` call or a direction
setter. -/
inductive Op where
  | step : Op
  | setForward : Op
  | setReverse : Op
deriving DecidableEq, Repr

/-- Run a sequence of interactions, threading the state. -/
def BiDirectionalIter.runOps (it : BiDirectionalIter α) :
    List Op → Except PyError (BiDirectionalIter α)
  | [] => Except.ok it
  | op :: ops =>
    match op with
    | Op.step =>
      match it.next with
      | Except.ok (_, it1) => it1.runOps ops
      | Except.error e => Except.error e
    | Op.setForward => it.set_direction_forward.runOps ops
    | Op.setReverse => it.set_direction_reverse.runOps ops

/-! ### Helper lemmas -/

theorem emod_add_self_right (a : Int) (N : Int) : (a + N) % N = a % N := by
  have h := @Int.add_mul_emod_self_left a N 1
  simp only [mul_one] at h
  exact h

theorem emod_bounds (a : Int) (N : Nat) (h : 1 ≤ N) :
    0 ≤ a % (N : Int) ∧ a % (N : Int) < (N : Int) := by
  have hne : (N : Int) ≠ 0 := by omega
  have hpos : (0 : Int) < (N : Int) := by omega
  exact ⟨Int.emod_nonneg a hne, Int.emod_lt_of_pos a hpos⟩

theorem pyListGet_of_bounds {α : Type} [Inhabited α] (l : List α) (i : Int)
    (h0 : 0 ≤ i) (h1 : i < (l.length : Int)) :
    pyListGet l i = some (l.getD i.toNat default) := by
  have hneg : ¬ i < 0 := by omega
  have ht : i.toNat < l.length := by omega
  simp only [pyListGet, if_neg hneg, if_pos h0]
  rw [List.getElem?_eq_getElem ht, List.getD_eq_getElem l default ht]

/-- Characterization of a successful `next` call: only the length bookkeeping
is needed; the cursor and the direction may be arbitrary integers. -/
theorem next_ok {α : Type} [Inhabited α] (it : BiDirectionalIter α)
    (hlen : it._length = it._elements.length) (hpos : 1 ≤ it._length) :
    it.next = Except.ok
      (it._elements.getD (((it._index + it._direction) % (it._length : Int)).toNat) default,
       { it with _index := (it._index + it._direction) % (it._length : Int) }) := by
  have hN0 : it._length ≠ 0 := by omega
  obtain ⟨hb0, hb1⟩ := emod_bounds (it._index + it._direction) it._length hpos
  have hb1' : (it._index + it._direction) % (it._length : Int) <
      (it._elements.length : Int) := by rw [← hlen]; exact hb1
  simp only [BiDirectionalIter.next, if_neg hN0,
    pyListGet_of_bounds it._elements _ hb0 hb1']

/-- A step from any state with correct length bookkeeping re-establishes the
full invariant. -/
theorem next_state_valid {α : Type} (it : BiDirectionalIter α)
    (hlen : it._length = it._elements.length) (hpos : 1 ≤ it._length)
    (hdir : it._direction = 1 ∨ it._direction = -1) :
    ({ it with _index := (it._index + it._direction) % (it._length : Int) }).Valid := by
  obtain ⟨hb0, hb1⟩ := emod_bounds (it._index + it._direction) it._length hpos
  exact ⟨hlen, hpos, hb0, hb1, hdir⟩

/-- Closed form for `k` consecutive `next` calls from a state whose cursor is
in range: the `t`-th returned element (0-based) is
`elements[(index + direction * (t+1)) mod N]` and the final cursor is
`(index + direction * k) mod N`.  The direction may be any integer. -/
theorem steps_ok {α : Type} [Inhabited α] (k : Nat) (it : BiDirectionalIter α)
    (hlen : it._length = it._elements.length) (hpos : 1 ≤ it._length)
    (h0 : 0 ≤ it._index) (h1 : it._index < (it._length : Int)) :
    it.steps k = Except.ok
      ((List.range k).map (fun (t : Nat) =>
        it._elements.getD
          (((it._index + it._direction * ((t : Int) + 1)) %
            (it._length : Int)).toNat) default),
       { it with
          _index := (it._index + it._direction * (k : Int)) % (it._length : Int) }) := by
  induction k generalizing it with
  | zero =>
    have hidx : it._index % (it._length : Int) = it._index :=
      Int.emod_eq_of_lt h0 h1
    simp [BiDirectionalIter.steps, hidx]
  | succ k ih =>
    have hnext := next_ok it hlen hpos
    obtain ⟨eb0, eb1⟩ := emod_bounds (it._index + it._direction) it._length hpos
    have hIH := ih { it with _index := (it._index + it._direction) % (it._length : Int) }
      hlen hpos eb0 eb1
    have harith : ∀ t : Int,
        ((it._index + it._direction) % (it._length : Int) + it._direction * (t + 1)) %
            (it._length : Int)
          = (it._index + it._direction * (t + 2)) % (it._length : Int) := by
      intro t
      rw [Int.emod_add_emod]
      congr 1
      ring
    have hlist : (List.range (k + 1)).map (fun (t : Nat) =>
          it._elements.getD
            (((it._index + it._direction * ((t : Int) + 1)) %
              (it._length : Int)).toNat) default)
        = it._elements.getD
            (((it._index + it._direction) % (it._length : Int)).toNat) default ::
          (List.range k).map (fun (t : Nat) =>
            it._elements.getD
              ((((it._index + it._direction) % (it._length : Int) +
                it._direction * ((t : Int) + 1)) % (it._length : Int)).toNat) default) := by
      rw [List.range_succ_eq_map, List.map_cons, List.map_map]
      refine congrArg₂ _ ?_ ?_
      · norm_num
      · refine List.map_congr_left ?_
        intro t _
        rw [Function.comp_apply, harith]
        congr 3
    have hstate : ((it._index + it._direction) % (it._length : Int) +
          it._direction * (k : Int)) % (it._length : Int)
        = (it._index + it._direction * ((k + 1 : Nat) : Int)) % (it._length : Int) := by
      rw [Int.emod_add_emod]
      congr 1
      push_cast
      ring
    simp only [BiDirectionalIter.steps, hnext, hIH, hlist, hstate]

/-- Running a sequence of `next` calls and direction changes from a valid
state always succeeds and re-establishes the invariant. -/
theorem runOps_valid {α : Type} [Inhabited α] (ops : List Op) :
    ∀ it : BiDirectionalIter α, it.Valid →
      ∃ it', it.runOps ops = Except.ok it' ∧ it'.Valid := by
  induction ops with
  | nil => exact fun it h => ⟨it, rfl, h⟩
  | cons op ops ih =>
    intro it h
    obtain ⟨hlen, hpos, h0, h1, hdir⟩ := h
    cases op with
    | step =>
      have hnext := next_ok it hlen hpos
      have hv := next_state_valid it hlen hpos hdir
      obtain ⟨it', hrun, hv'⟩ := ih _ hv
      refine ⟨it', ?_, hv'⟩
      simp only [BiDirectionalIter.runOps, hnext]
      exact hrun
    | setForward =>
      have hv : it.set_direction_forward.Valid := ⟨hlen, hpos, h0, h1, Or.inl rfl⟩
      obtain ⟨it', hrun, hv'⟩ := ih _ hv
      exact ⟨it', hrun, hv'⟩
    | setReverse =>
      have hv : it.set_direction_reverse.Valid := ⟨hlen, hpos, h0, h1, Or.inr rfl⟩
      obtain ⟨it', hrun, hv'⟩ := ih _ hv
      exact ⟨it', hrun, hv'⟩

/-! ### Claim theorems -/

/-- C1: for every iterator over a non-empty sequence with cursor in `[0, N)`,
a `next` call first updates the cursor to `(index + direction) mod N` —
mathematical modulo, non-negative, in `[0, N)` — and then returns the element
at the updated position. -/
theorem C1_step_updates_index_then_returns {α : Type} [Inhabited α]
    (it : BiDirectionalIter α) (h : it.Valid) :
    it.next = Except.ok
      (it._elements.getD (((it._index + it._direction) % (it._length : Int)).toNat) default,
       { it with _index := (it._index + it._direction) % (it._length : Int) }) ∧
    0 ≤ (it._index + it._direction) % (it._length : Int) ∧
    (it._index + it._direction) % (it._length : Int) < (it._length : Int) := by
  obtain ⟨hlen, hpos, -, -, -⟩ := h
  obtain ⟨hb0, hb1⟩ := emod_bounds (it._index + it._direction) it._length hpos
  exact ⟨next_ok it hlen hpos, hb0, hb1⟩

/-- Witness for C1 at the iterator over `[10, 20, 30]` with cursor 1. -/
theorem C1_witness :
    (BiDirectionalIter.init ([10, 20, 30] : List Nat) 1).Valid ∧
    (BiDirectionalIter.init ([10, 20, 30] : List Nat) 1).next =
      Except.ok (30, ⟨[10, 20, 30], 2, 1, 3⟩) := by
  refine ⟨by decide, ?_⟩
  have h :=
    (C1_step_updates_index_then_returns
      (BiDirectionalIter.init ([10, 20, 30] : List Nat) 1) (by decide)).1
  exact h.trans (by decide)

/-- C2 counterexample: constructing over the empty list succeeds and is not
an `InvalidArgument` error, contradicting the claimed construction-time
failure. -/
theorem C2_counterexample :
    BiDirectionalIter.construct ([] : List Nat) 0 =
      Except.ok (BiDirectionalIter.init [] 0) ∧
    BiDirectionalIter.construct ([] : List Nat) 0 ≠
      Except.error PyError.invalidArgument := by
  decide

/-- C2 amended: construction with an empty backing sequence succeeds (the
constructor performs no validation); the failure surfaces only at the first
`next` call, which fails with a division-by-zero error from `% 0`. -/
theorem C2_empty_accepted_first_step_fails {α : Type} (si : Int) :
    BiDirectionalIter.construct ([] : List α) si =
      Except.ok (BiDirectionalIter.init [] si) ∧
    (BiDirectionalIter.init ([] : List α) si).next =
      Except.error PyError.zeroDivision :=
  ⟨rfl, rfl⟩

/-- C3 counterexample: constructing over `[10, 20]` with starting index 2
(one past the end) succeeds and is not an `InvalidArgument` error,
contradicting the claimed construction-time failure. -/
theorem C3_counterexample :
    BiDirectionalIter.construct ([10, 20] : List Nat) 2 =
      Except.ok (BiDirectionalIter.init [10, 20] 2) ∧
    BiDirectionalIter.construct ([10, 20] : List Nat) 2 ≠
      Except.error PyError.invalidArgument := by
  decide

/-- C3 amended: for every non-empty sequence and every starting index outside
`[0, N)`, construction succeeds (no validation is performed); the first
`next` call then succeeds and brings the cursor into `[0, N)`. -/
theorem C3_out_of_range_start_accepted {α : Type} [Inhabited α]
    (S : List α) (si : Int) (hS : 1 ≤ S.length)
    (_hout : ¬ (0 ≤ si ∧ si < (S.length : Int))) :
    BiDirectionalIter.construct S si = Except.ok (BiDirectionalIter.init S si) ∧
    ∃ x it', (BiDirectionalIter.init S si).next = Except.ok (x, it') ∧
      0 ≤ it'._index ∧ it'._index < (S.length : Int) := by
  obtain ⟨hb0, hb1⟩ := emod_bounds (si + 1) S.length hS
  exact ⟨rfl, _, _, next_ok (BiDirectionalIter.init S si) rfl hS, hb0, hb1⟩

/-- Witness for C3 amended at `[5, 6]` with starting index 2. -/
theorem C3_witness :
    (1 ≤ ([5, 6] : List Nat).length ∧
      ¬ (0 ≤ (2 : Int) ∧ (2 : Int) < ((([5, 6] : List Nat).length : Nat) : Int))) ∧
    (BiDirectionalIter.construct ([5, 6] : List Nat) 2 =
        Except.ok (BiDirectionalIter.init [5, 6] 2) ∧
      ∃ x it', (BiDirectionalIter.init ([5, 6] : List Nat) 2).next =
          Except.ok (x, it') ∧
        0 ≤ it'._index ∧ it'._index < ((([5, 6] : List Nat).length : Nat) : Int)) :=
  ⟨⟨by decide, by decide⟩,
    C3_out_of_range_start_accepted ([5, 6] : List Nat) 2 (by decide) (by decide)⟩

/-- C4: from any valid state, any interleaving of `next` calls and direction
changes runs without error and preserves the invariant `0 ≤ index < N`. -/
theorem C4_invariant_under_interleavings {α : Type} [Inhabited α]
    (it : BiDirectionalIter α) (h : it.Valid) (ops : List Op) :
    ∃ it', it.runOps ops = Except.ok it' ∧ it'.Valid :=
  runOps_valid ops it h

/-- Witness for C4 at `[10, 20]`, start 0, with a step, a direction change
and another step. -/
theorem C4_witness :
    (BiDirectionalIter.init ([10, 20] : List Nat) 0).Valid ∧
    ∃ it', (BiDirectionalIter.init ([10, 20] : List Nat) 0).runOps
        [Op.step, Op.setReverse, Op.step] = Except.ok it' ∧ it'.Valid :=
  ⟨by decide,
    C4_invariant_under_interleavings (BiDirectionalIter.init ([10, 20] : List Nat) 0)
      (by decide) [Op.step, Op.setReverse, Op.step]⟩

/-- C5: from any valid state with forward direction, `N` consecutive `next`
calls return `S[(i+1) % N], ..., S[(i+N) % N]` — one full cycle that ends
back in the starting state — and in particular over `["rick", "morty"]`
from index 0 four calls yield `"morty", "rick", "morty", "rick"`. -/
theorem C5_forward_full_cycle {α : Type} [Inhabited α]
    (it : BiDirectionalIter α) (h : it.Valid) (hdir : it._direction = 1) :
    it.steps it._length = Except.ok
      ((List.range it._length).map (fun (t : Nat) =>
        it._elements.getD
          (((it._index + ((t : Int) + 1)) % (it._length : Int)).toNat) default),
       it) ∧
    (BiDirectionalIter.init (["rick", "morty"] : List String) 0).steps 4 =
      Except.ok (["morty", "rick", "morty", "rick"],
        BiDirectionalIter.init (["rick", "morty"] : List String) 0) := by
  obtain ⟨hlen, hpos, h0, h1, -⟩ := h
  have hs := steps_ok it._length it hlen hpos h0 h1
  have hR : ({ it with _index := (it._index + it._direction * (it._length : Int)) %
      (it._length : Int) } : BiDirectionalIter α) = it := by
    have hi : (it._index + it._direction * (it._length : Int)) % (it._length : Int)
        = it._index := by
      rw [hdir, one_mul, emod_add_self_right]
      exact Int.emod_eq_of_lt h0 h1
    rw [hi]
  rw [hR] at hs
  simp only [hdir, one_mul] at hs
  exact ⟨hs, by decide⟩

/-- Witness for C5 at `[1, 2, 3]`, start 0: three forward steps yield
`2, 3, 1` and return to the initial state. -/
theorem C5_witness :
    ((BiDirectionalIter.init ([1, 2, 3] : List Nat) 0).Valid ∧
      (BiDirectionalIter.init ([1, 2, 3] : List Nat) 0)._direction = 1) ∧
    (BiDirectionalIter.init ([1, 2, 3] : List Nat) 0).steps 3 =
      Except.ok ([2, 3, 1], BiDirectionalIter.init ([1, 2, 3] : List Nat) 0) := by
  refine ⟨⟨by decide, rfl⟩, ?_⟩
  have h := (C5_forward_full_cycle
    (BiDirectionalIter.init ([1, 2, 3] : List Nat) 0) (by decide) rfl).1
  exact h.trans (by decide)

/-- C6 counterexample: over `[0, 1]` from index 0, two reverse steps yield
`[1, 0]` and two forward steps also yield `[1, 0]`, and `[1, 0]` is not the
reversal of `[1, 0]` — so the reverse traversal does not equal the reversal
of the forward traversal from the same index. -/
theorem C6_counterexample :
    (BiDirectionalIter.init ([0, 1] : List Nat) 0).set_direction_reverse.steps 2 =
      Except.ok ([1, 0],
        (BiDirectionalIter.init ([0, 1] : List Nat) 0).set_direction_reverse) ∧
    (BiDirectionalIter.init ([0, 1] : List Nat) 0).steps 2 =
      Except.ok ([1, 0], BiDirectionalIter.init ([0, 1] : List Nat) 0) ∧
    ([1, 0] : List Nat) ≠ ([1, 0] : List Nat).reverse := by
  decide

/-- C6 amended: from a valid state at index `i`, `N` reverse steps return the
reversal of the `N` forward steps taken from index `(i - 1) mod N` — one
position back — not of the forward traversal from the same index `i`. -/
theorem C6_reverse_traversal_reverses_shifted_forward {α : Type} [Inhabited α]
    (it : BiDirectionalIter α) (h : it.Valid) :
    (it.set_direction_reverse.steps it._length).map (fun p => p.1) =
      (({ it with
            _index := (it._index - 1) % (it._length : Int),
            _direction := 1 } : BiDirectionalIter α).steps it._length).map
        (fun p => p.1.reverse) := by
  obtain ⟨es, i, d, L⟩ := it
  obtain ⟨hlen, hpos, h0, h1, -⟩ := h
  obtain ⟨fb0, fb1⟩ := emod_bounds (i - 1) L hpos
  have hsR := steps_ok L (⟨es, i, -1, L⟩ : BiDirectionalIter α) hlen hpos h0 h1
  have hsF := steps_ok L (⟨es, (i - 1) % (L : Int), 1, L⟩ : BiDirectionalIter α)
    hlen hpos fb0 fb1
  show (BiDirectionalIter.steps ⟨es, i, -1, L⟩ L).map (fun p => p.1)
      = (BiDirectionalIter.steps ⟨es, (i - 1) % (L : Int), 1, L⟩ L).map
          (fun p => p.1.reverse)
  rw [hsR, hsF]
  simp only [Except.map]
  congr 1
  apply List.ext_getElem
  · simp
  · intro t ht1 ht2
    simp only [List.length_map, List.length_range] at ht1 ht2
    rw [List.getElem_reverse]
    simp only [List.getElem_map, List.getElem_range, List.length_map,
      List.length_range]
    have hc : (((L - 1 - t : Nat)) : Int) = (L : Int) - 1 - (t : Int) := by omega
    have key : ((i - 1) % (L : Int) + 1 * ((((L - 1 - t : Nat)) : Int) + 1)) % (L : Int)
        = (i + (-1) * ((t : Int) + 1)) % (L : Int) := by
      rw [hc, one_mul, Int.emod_add_emod]
      have hr : i - 1 + ((L : Int) - 1 - (t : Int) + 1)
          = i + (-1) * ((t : Int) + 1) + (L : Int) := by ring
      rw [hr, emod_add_self_right]
    rw [key]

/-- Witness for C6 amended at `[1, 2, 3]`, start 0: three reverse steps yield
`[3, 2, 1]`, the reversal of the forward traversal `[1, 2, 3]` from index
`(0 - 1) mod 3 = 2`. -/
theorem C6_witness :
    (BiDirectionalIter.init ([1, 2, 3] : List Nat) 0).Valid ∧
    ((BiDirectionalIter.init ([1, 2, 3] : List Nat) 0).set_direction_reverse.steps
        3).map (fun p => p.1) = Except.ok ([3, 2, 1] : List Nat) := by
  refine ⟨by decide, ?_⟩
  have h := C6_reverse_traversal_reverses_shifted_forward
    (BiDirectionalIter.init ([1, 2, 3] : List Nat) 0) (by decide)
  exact h.trans (by decide)

/-- C7: from a valid state at index `i` with forward direction, one step
followed by a switch to reverse and one more step returns `S[i]` and
restores the cursor to `i`. -/
theorem C7_round_trip {α : Type} [Inhabited α]
    (it : BiDirectionalIter α) (h : it.Valid) (hdir : it._direction = 1) :
    ∃ x it1, it.next = Except.ok (x, it1) ∧
      ∃ it2, it1.set_direction_reverse.next =
          Except.ok (it._elements.getD it._index.toNat default, it2) ∧
        it2._index = it._index := by
  obtain ⟨hlen, hpos, h0, h1, -⟩ := h
  have h1next := next_ok it hlen hpos
  refine ⟨_, _, h1next, ?_⟩
  have h2next := next_ok
    ({ it with _index := (it._index + it._direction) %
        (it._length : Int) }).set_direction_reverse hlen hpos
  simp only [BiDirectionalIter.set_direction_reverse] at h2next
  have harith : ((it._index + it._direction) % (it._length : Int) + (-1)) %
      (it._length : Int) = it._index := by
    rw [Int.emod_add_emod, hdir]
    have hr : it._index + 1 + (-1) = it._index := by ring
    rw [hr]
    exact Int.emod_eq_of_lt h0 h1
  rw [harith] at h2next
  exact ⟨_, h2next, rfl⟩

/-- Witness for C7 over `["rick", "morty"]` from index 0: step to `"morty"`,
switch to reverse, step back to `"rick"` at index 0. -/
theorem C7_witness :
    (BiDirectionalIter.init (["rick", "morty"] : List String) 0).Valid ∧
    ∃ x it1, (BiDirectionalIter.init (["rick", "morty"] : List String) 0).next =
        Except.ok (x, it1) ∧
      ∃ it2, it1.set_direction_reverse.next = Except.ok ("rick", it2) ∧
        it2._index = 0 := by
  refine ⟨by decide, ?_⟩
  exact C7_round_trip
    (BiDirectionalIter.init (["rick", "morty"] : List String) 0) (by decide) rfl

/-- C8: from any valid state a `next` call cannot fail: it returns an element
and a state that again satisfies the invariant, so once construction has
produced a valid state no operation has a runtime failure mode. -/
theorem C8_step_never_fails {α : Type} [Inhabited α]
    (it : BiDirectionalIter α) (h : it.Valid) :
    ∃ x it', it.next = Except.ok (x, it') ∧ it'.Valid := by
  obtain ⟨hlen, hpos, h0, h1, hdir⟩ := h
  exact ⟨_, _, next_ok it hlen hpos, next_state_valid it hlen hpos hdir⟩

/-- Witness for C8 at the one-element list `["a"]`. -/
theorem C8_witness :
    (BiDirectionalIter.init (["a"] : List String) 0).Valid ∧
    ∃ x it', (BiDirectionalIter.init (["a"] : List String) 0).next =
        Except.ok (x, it') ∧ it'.Valid :=
  ⟨by decide,
    C8_step_never_fails (BiDirectionalIter.init (["a"] : List String) 0) (by decide)⟩

/-- C9: the direction setters change only the `_direction` field, and a
`next` call changes nothing but the cursor: elements, direction and stored
length are untouched. -/
theorem C9_setters_frame {α : Type} (it : BiDirectionalIter α) :
    it.set_direction_forward._index = it._index ∧
    it.set_direction_forward._elements = it._elements ∧
    it.set_direction_forward._length = it._length ∧
    it.set_direction_forward._direction = 1 ∧
    it.set_direction_reverse._index = it._index ∧
    it.set_direction_reverse._elements = it._elements ∧
    it.set_direction_reverse._length = it._length ∧
    it.set_direction_reverse._direction = -1 ∧
    (∀ x it', it.next = Except.ok (x, it') →
      it'._elements = it._elements ∧ it'._direction = it._direction ∧
      it'._length = it._length) := by
  refine ⟨rfl, rfl, rfl, rfl, rfl, rfl, rfl, rfl, ?_⟩
  intro x it' hnext
  by_cases hL : it._length = 0
  · simp only [BiDirectionalIter.next, if_pos hL] at hnext
    exact absurd hnext (by simp)
  · simp only [BiDirectionalIter.next, if_neg hL] at hnext
    cases hget : pyListGet it._elements
        ((it._index + it._direction) % (it._length : Int)) with
    | some x0 =>
      rw [hget] at hnext
      simp only [Except.ok.injEq, Prod.mk.injEq] at hnext
      obtain ⟨-, hit⟩ := hnext
      rw [← hit]
      exact ⟨rfl, rfl, rfl⟩
    | none =>
      rw [hget] at hnext
      exact absurd hnext (by simp)

/-- Witness for C9: a step over `[7, 8]` changes only the cursor. -/
theorem C9_witness :
    (BiDirectionalIter.init ([7, 8] : List Nat) 0).next =
      Except.ok (8, (⟨[7, 8], 1, 1, 2⟩ : BiDirectionalIter Nat)) ∧
    ((⟨[7, 8], 1, 1, 2⟩ : BiDirectionalIter Nat)._elements =
        (BiDirectionalIter.init ([7, 8] : List Nat) 0)._elements ∧
      (⟨[7, 8], 1, 1, 2⟩ : BiDirectionalIter Nat)._direction =
        (BiDirectionalIter.init ([7, 8] : List Nat) 0)._direction ∧
      (⟨[7, 8], 1, 1, 2⟩ : BiDirectionalIter Nat)._length =
        (BiDirectionalIter.init ([7, 8] : List Nat) 0)._length) := by
  have h := (C9_setters_frame (BiDirectionalIter.init ([7, 8] : List Nat) 0)).2.2.2.2.2.2.2.2
  exact ⟨by decide, h 8 ⟨[7, 8], 1, 1, 2⟩ (by decide)⟩

/-- C10: for every non-empty sequence and every integer starting index —
including out-of-range ones — construction succeeds, the first `next` call
sets the cursor to `(starting_index + 1) mod N ∈ [0, N)` (the initial
direction is `+1`), and the iterator behaves identically to one constructed
with `starting_index mod N`. -/
theorem C10_arbitrary_start_normalized {α : Type} [Inhabited α]
    (S : List α) (si : Int) (hS : 1 ≤ S.length) :
    BiDirectionalIter.construct S si = Except.ok (BiDirectionalIter.init S si) ∧
    (∃ x it', (BiDirectionalIter.init S si).next = Except.ok (x, it') ∧
      it'._index = (si + 1) % (S.length : Int) ∧
      0 ≤ it'._index ∧ it'._index < (S.length : Int)) ∧
    (BiDirectionalIter.init S si).next =
      (BiDirectionalIter.init S (si % (S.length : Int))).next ∧
    ∀ k : Nat, (BiDirectionalIter.init S si).steps (k + 1) =
      (BiDirectionalIter.init S (si % (S.length : Int))).steps (k + 1) := by
  obtain ⟨hb0, hb1⟩ := emod_bounds (si + 1) S.length hS
  have h1 := next_ok (⟨S, si, 1, S.length⟩ : BiDirectionalIter α) rfl hS
  have h2 := next_ok (⟨S, si % (S.length : Int), 1, S.length⟩ : BiDirectionalIter α)
    rfl hS
  simp only at h1 h2
  have harith : (si % (S.length : Int) + 1) % (S.length : Int) =
      (si + 1) % (S.length : Int) := Int.emod_add_emod si (S.length : Int) 1
  rw [harith] at h2
  have hnexteq : (BiDirectionalIter.init S si).next =
      (BiDirectionalIter.init S (si % (S.length : Int))).next := by
    show BiDirectionalIter.next (⟨S, si, 1, S.length⟩ : BiDirectionalIter α) =
      BiDirectionalIter.next (⟨S, si % (S.length : Int), 1, S.length⟩ : BiDirectionalIter α)
    rw [h1, h2]
  refine ⟨rfl, ⟨_, _, h1, rfl, hb0, hb1⟩, hnexteq, ?_⟩
  intro k
  simp only [BiDirectionalIter.steps]
  rw [hnexteq]

/-- Witness for C10 at `[7, 8, 9]` with the negative starting index `-5`. -/
theorem C10_witness :
    1 ≤ ([7, 8, 9] : List Nat).length ∧
    (BiDirectionalIter.construct ([7, 8, 9] : List Nat) (-5) =
        Except.ok (BiDirectionalIter.init [7, 8, 9] (-5)) ∧
      (∃ x it', (BiDirectionalIter.init ([7, 8, 9] : List Nat) (-5)).next =
          Except.ok (x, it') ∧
        it'._index = (-5 + 1) % ((([7, 8, 9] : List Nat).length : Nat) : Int) ∧
        0 ≤ it'._index ∧
        it'._index < ((([7, 8, 9] : List Nat).length : Nat) : Int)) ∧
      (BiDirectionalIter.init ([7, 8, 9] : List Nat) (-5)).next =
        (BiDirectionalIter.init ([7, 8, 9] : List Nat)
          ((-5) % ((([7, 8, 9] : List Nat).length : Nat) : Int))).next ∧
      ∀ k : Nat, (BiDirectionalIter.init ([7, 8, 9] : List Nat) (-5)).steps (k + 1) =
        (BiDirectionalIter.init ([7, 8, 9] : List Nat)
          ((-5) % ((([7, 8, 9] : List Nat).length : Nat) : Int))).steps (k + 1)) :=
  ⟨by decide, C10_arbitrary_start_normalized ([7, 8, 9] : List Nat) (-5) (by decide)⟩
